import Mathlib

/-!
Verification development for the mobile-network OCR web application.

The Python modules under `src/modules` are shallowly embedded here:
* `visual_analyzer.py` — brightness/activation classifier and carrier selection
  (`_determine_activation_status`, `_analyze_activation_states`,
  `_generate_summary`, `_compare_operator_selection`, and the bounding-box
  clamping in `analyze_text_brightness`);
* `data_extractor.py` — the regex-based field extractor
  (`_extract_network_info`, `_extract_speed_test_info`,
  `extract_structured_data`, `extract_mobile_network_data`,
  `_enhance_network_info_extraction`, `_enhance_speed_test_extraction`,
  `_find_nearby_number`).

Python floats are modelled by `ℚ` (every comparison performed by the code is
far from the float rounding error, so outcomes agree), Python strings by
`String`/`List Char`, Python dicts by insertion-ordered association lists
(`Dict α` below) with Python's assignment/update semantics, and raised
exceptions by `Except String`.
-/

namespace OcrWebApp

/-- Insertion-ordered association list standing for a Python `dict`. -/
abbrev Dict (α : Type) : Type := List (String × α)

/-- Python `d[k] = v`: replace the value at the first occurrence of `k`,
keeping its position, or append a fresh entry at the end. -/
def dictSet {α : Type} : Dict α → String → α → Dict α
  | [], k, v => [(k, v)]
  | (k0, v0) :: t, k, v =>
    if k0 = k then (k0, v) :: t else (k0, v0) :: dictSet t k v

/-- Python `d.get(k)` / `k in d`: value at the first entry with key `k`. -/
def dictGet {α : Type} : Dict α → String → Option α
  | [], _ => none
  | (k0, v) :: t, k => if k0 = k then some v else dictGet t k

/-- Python `base.update(e)`: assign every entry of `e` into `base`
in `e`'s insertion order. -/
def pyUpdate {α : Type} (base e : Dict α) : Dict α :=
  e.foldl (fun d kv => dictSet d kv.1 kv.2) base

/-- Substring containment on character lists: `needle` occurs contiguously
inside `hay`. -/
def listInfixOf (needle : List Char) : List Char → Bool
  | [] => needle.isEmpty
  | c :: rest => needle.isPrefixOf (c :: rest) || listInfixOf needle rest

/-- Python `needle in hay` on strings (substring containment). -/
def pyContains (needle hay : String) : Bool :=
  listInfixOf needle.toList hay.toList

/-! ## Visual analyzer: data model (`visual_analyzer.py`) -/

/-- One entry of `brightness_results` as consumed by
`_analyze_activation_states`: the fields the classifier reads
(`brightness['mean']`, `contrast`, `clarity['sharpness']`, `text`,
`confidence`).  The unread statistics (std/min/max/median, edge density)
are not modelled. -/
structure RegionResult where
  text : String
  brightnessMean : ℚ
  contrast : ℚ
  sharpness : ℚ
  confidence : ℚ
deriving DecidableEq

/-- One element of `active_texts`/`inactive_texts` built by
`_analyze_activation_states`. -/
structure TextInfo where
  text : String
  brightnessLevel : String
  brightnessValue : ℚ
  contrastValue : ℚ
  status : String
  confidence : ℚ
deriving DecidableEq

/-- Return value of `_analyze_activation_states`.  The Python function
returns a dict; in the empty-input early return the `average_brightness`
key is absent, which is modelled by `none`. -/
structure ActivationAnalysis where
  activeTexts : List TextInfo
  inactiveTexts : List TextInfo
  averageBrightness : Option ℚ
deriving DecidableEq

/-- `self.brightness_threshold = 50` from `VisualAnalyzer.__init__`. -/
def brightnessThreshold : ℚ := 50

/-- `self.contrast_threshold = 30` from `VisualAnalyzer.__init__`. -/
def contrastThreshold : ℚ := 30

/-- `VisualAnalyzer._determine_activation_status`: weighted score of the
three boolean indicators, active iff the score exceeds `0.5`.  Python's
`bool * float` products `0.4`, `0.3`, `0.3` are the rationals
`4/10`, `3/10`, `3/10` (every reachable float sum is far from `0.5`,
so the comparison outcome agrees with float arithmetic). -/
def determineActivationStatus (brightness avgBrightness contrast sharpness : ℚ) : Bool :=
  let score : ℚ :=
    (if brightness - avgBrightness > brightnessThreshold then (1 : ℚ) else 0) * (4 / 10)
    + (if contrast > contrastThreshold then (1 : ℚ) else 0) * (3 / 10)
    + (if sharpness > 100 then (1 : ℚ) else 0) * (3 / 10)
  decide (score > 1 / 2)

/-- `VisualAnalyzer._categorize_brightness`. -/
def categorizeBrightness (brightness : ℚ) : String :=
  if brightness > 180 then "very_high"
  else if brightness > 140 then "high"
  else if brightness > 100 then "medium"
  else if brightness > 60 then "low"
  else "very_low"

/-- Whether `_determine_activation_status` flags a region active, given the
average brightness of all regions. -/
def regionIsActive (avg : ℚ) (r : RegionResult) : Bool :=
  determineActivationStatus r.brightnessMean avg r.contrast r.sharpness

/-- The `text_info` dict built for one region inside
`_analyze_activation_states`. -/
def regionTextInfo (avg : ℚ) (r : RegionResult) : TextInfo :=
  { text := r.text
  , brightnessLevel := categorizeBrightness r.brightnessMean
  , brightnessValue := r.brightnessMean
  , contrastValue := r.contrast
  , status := if regionIsActive avg r then "active" else "inactive"
  , confidence := r.confidence }

/-- `VisualAnalyzer._analyze_activation_states`.  On an empty input the
Python code returns a dict containing only the two (empty) text lists;
otherwise it computes `avg_brightness = np.mean(...)` and partitions the
regions by `_determine_activation_status`, preserving input order. -/
def analyzeActivationStates (rs : List RegionResult) : ActivationAnalysis :=
  match rs with
  | [] => { activeTexts := [], inactiveTexts := [], averageBrightness := none }
  | _ :: _ =>
    let avg : ℚ := (rs.map (fun r => r.brightnessMean)).sum / (rs.length : ℚ)
    { activeTexts := (rs.filter (fun r => regionIsActive avg r)).map (regionTextInfo avg)
    , inactiveTexts := (rs.filter (fun r => !regionIsActive avg r)).map (regionTextInfo avg)
    , averageBrightness := some avg }

/-- Return value of `_generate_summary`. -/
structure Summary where
  totalTextRegions : ℕ
  activeRegions : ℕ
  inactiveRegions : ℕ
  averageBrightness : ℚ
  activationRatio : ℚ
deriving DecidableEq

/-- `VisualAnalyzer._generate_summary`.  It reads
`activation_analysis['average_brightness']` unconditionally; when that key
is absent (the empty-input early return of `_analyze_activation_states`)
Python raises `KeyError`, modelled as `Except.error`. -/
def generateSummary (brightnessResults : List RegionResult)
    (aa : ActivationAnalysis) : Except String Summary :=
  match aa.averageBrightness with
  | none => .error "KeyError: average_brightness"
  | some avg =>
    .ok { totalTextRegions := brightnessResults.length
        , activeRegions := aa.activeTexts.length
        , inactiveRegions := aa.inactiveTexts.length
        , averageBrightness := avg
        , activationRatio :=
            if brightnessResults.length > 0 then
              (aa.activeTexts.length : ℚ) / (brightnessResults.length : ℚ)
            else 0 }

/-- The tail of `VisualAnalyzer.analyze_text_brightness` after the per-region
profiles have been computed: run `_analyze_activation_states`, then
`_generate_summary`; an exception in either aborts the whole analysis. -/
def analyzeTextBrightnessPipeline (rs : List RegionResult) :
    Except String (ActivationAnalysis × Summary) :=
  let aa := analyzeActivationStates rs
  (generateSummary rs aa).map (fun s => (aa, s))

/-! ## Claim C1 -/

/-- **C1.** For every candidate region, the activation verdict computed by
`_determine_activation_status` from the three boolean indicators
B (`brightness - avg > 50`), C (`contrast > 30`), S (`sharpness > 100`)
with weighted score `0.4*B + 0.3*C + 0.3*S` is active exactly when the
score exceeds `0.5`, which is equivalent to at least two of the three
indicators holding; in particular no single indicator alone (including B)
yields an active verdict. -/
theorem determineActivationStatus_iff_two_of_three
    (brightness avgBrightness contrast sharpness : ℚ) :
    determineActivationStatus brightness avgBrightness contrast sharpness = true ↔
      ((brightness - avgBrightness > 50 ∧ contrast > 30)
        ∨ (brightness - avgBrightness > 50 ∧ sharpness > 100)
        ∨ (contrast > 30 ∧ sharpness > 100)) := by
  unfold determineActivationStatus brightnessThreshold contrastThreshold
  by_cases h1 : brightness - avgBrightness > 50 <;>
    by_cases h2 : contrast > 30 <;>
    by_cases h3 : sharpness > 100 <;>
    simp [h1, h2, h3] <;> norm_num

/-! ## Operator selection (`_compare_operator_selection`) -/

/-- One value of the `operator_states` dict built by
`_compare_operator_selection`. -/
structure OpState where
  status : String
  brightnessLevel : String
  brightnessValue : ℚ
  confidence : ℚ
deriving DecidableEq

/-- The state dict assigned for an active text
(`operator_states[operator] = ...` in the first loop). -/
def activeState (ti : TextInfo) : OpState :=
  { status := "active", brightnessLevel := ti.brightnessLevel
  , brightnessValue := ti.brightnessValue, confidence := ti.confidence }

/-- The state dict assigned for an inactive text (second loop). -/
def inactiveState (ti : TextInfo) : OpState :=
  { status := "inactive", brightnessLevel := ti.brightnessLevel
  , brightnessValue := ti.brightnessValue, confidence := ti.confidence }

/-- Inner loop of the first (`active_texts`) pass: for each operator of
`text_list` contained in the text, assign the active state
(unconditionally, overwriting any earlier entry). -/
def insertOneActive (L : List String) (ti : TextInfo) (d : Dict OpState) : Dict OpState :=
  L.foldl (fun d op =>
    if pyContains op ti.text then dictSet d op (activeState ti) else d) d

/-- First pass of `_compare_operator_selection` over `active_texts`. -/
def insertActiveTexts (L : List String) (acts : List TextInfo) (d : Dict OpState) :
    Dict OpState :=
  acts.foldl (fun d ti => insertOneActive L ti d) d

/-- Inner loop of the second (`inactive_texts`) pass: assign the inactive
state only when the operator matches and is not yet present
(`operator not in operator_states`). -/
def insertOneInactive (L : List String) (ti : TextInfo) (d : Dict OpState) : Dict OpState :=
  L.foldl (fun d op =>
    if pyContains op ti.text && (dictGet d op).isNone
    then dictSet d op (inactiveState ti) else d) d

/-- Second pass of `_compare_operator_selection` over `inactive_texts`. -/
def insertInactiveTexts (L : List String) (inacts : List TextInfo) (d : Dict OpState) :
    Dict OpState :=
  inacts.foldl (fun d ti => insertOneInactive L ti d) d

/-- The `operator_states` dict of `_compare_operator_selection`: the active
pass runs first on an empty dict, then the inactive pass. -/
def buildOperatorStates (acts inacts : List TextInfo) (L : List String) : Dict OpState :=
  insertInactiveTexts L inacts (insertActiveTexts L acts [])

/-- Loop body of the `active_operator` selection at the end of
`_compare_operator_selection`: keep the operator iff its state is active
and its brightness strictly exceeds the running maximum. -/
def selStep (acc : Option String × ℚ) (kv : String × OpState) : Option String × ℚ :=
  if kv.2.status = "active" ∧ kv.2.brightnessValue > acc.2
  then (some kv.1, kv.2.brightnessValue) else acc

/-- The `active_operator` selection loop: `active_operator = None`,
`max_brightness = 0`, then one `selStep` per dict entry. -/
def selectActiveOperator (states : Dict OpState) : Option String :=
  (states.foldl selStep ((none : Option String), (0 : ℚ))).1

/-- Return value of `_compare_operator_selection`. -/
structure ComparisonResult where
  operatorStates : Dict OpState
  activeOperator : Option String
  availableOperators : List String
deriving DecidableEq

/-- `VisualAnalyzer._compare_operator_selection`, taking the
`active_texts`/`inactive_texts` of the activation analysis and the
operator lexicon `text_list`. -/
def compareOperatorSelection (acts inacts : List TextInfo) (L : List String) :
    ComparisonResult :=
  let states := buildOperatorStates acts inacts L
  { operatorStates := states
  , activeOperator := selectActiveOperator states
  , availableOperators := states.map (fun kv => kv.1) }

/-! ## Claim C4 -/

/-- **C4** (supporting theorem for the code bug).  On zero candidate
regions the brightness-analysis pipeline does NOT complete: the early
return of `_analyze_activation_states` omits the `average_brightness` key
and `_generate_summary` reads it unconditionally, so the pipeline raises
`KeyError` instead of reporting no active operator. -/
theorem analyzePipeline_empty_raises :
    analyzeTextBrightnessPipeline [] =
      Except.error "KeyError: average_brightness" := rfl

/-! ## Dictionary lemmas -/

theorem dictGet_dictSet_self {α : Type} (d : Dict α) (k : String) (v : α) :
    dictGet (dictSet d k v) k = some v := by
  induction d with
  | nil => simp [dictSet, dictGet]
  | cons kv t ih =>
    obtain ⟨k0, v0⟩ := kv
    by_cases h : k0 = k <;> simp [dictSet, dictGet, h, ih]

theorem dictGet_dictSet_ne {α : Type} (d : Dict α) (k k' : String) (v : α)
    (h : k ≠ k') : dictGet (dictSet d k v) k' = dictGet d k' := by
  induction d with
  | nil => simp [dictSet, dictGet, h]
  | cons kv t ih =>
    obtain ⟨k0, v0⟩ := kv
    by_cases h0 : k0 = k
    · subst h0
      simp [dictSet, dictGet, h]
    · simp [dictSet, dictGet, h0, ih]

theorem mem_dictSet {α : Type} (d : Dict α) (k : String) (v : α) (kv : String × α)
    (h : kv ∈ dictSet d k v) : kv.2 = v ∨ kv ∈ d := by
  induction d with
  | nil =>
    simp [dictSet] at h
    simp [h]
  | cons kv0 t ih =>
    obtain ⟨k0, v0⟩ := kv0
    by_cases h0 : k0 = k
    · simp [dictSet, h0] at h
      rcases h with h | h
      · simp [h]
      · exact Or.inr (List.mem_cons_of_mem _ h)
    · simp [dictSet, h0] at h
      rcases h with h | h
      · exact Or.inr (by simp [h])
      · rcases ih h with h2 | h2
        · exact Or.inl h2
        · exact Or.inr (List.mem_cons_of_mem _ h2)

/-- Last element of a list satisfying `p` (the entry that survives a
sequence of overwriting dict assignments). -/
def lastSat {α : Type} (p : α → Bool) : List α → Option α
  | [] => none
  | a :: l =>
    match lastSat p l with
    | some b => some b
    | none => if p a then some a else none

theorem dictGet_insertOneActive (L : List String) (ti : TextInfo)
    (d : Dict OpState) (op : String) :
    dictGet (insertOneActive L ti d) op =
      if op ∈ L ∧ pyContains op ti.text = true
      then some (activeState ti) else dictGet d op := by
  induction L generalizing d with
  | nil => simp [insertOneActive]
  | cons op' rest ih =>
    have hcons : insertOneActive (op' :: rest) ti d =
        insertOneActive rest ti
          (if pyContains op' ti.text then dictSet d op' (activeState ti) else d) := by
      simp [insertOneActive, List.foldl_cons]
    rw [hcons, ih]
    by_cases hm : op ∈ rest <;> by_cases hc : pyContains op ti.text = true
    · simp [hm, hc]
    · -- op ∈ rest, no match for op itself
      by_cases he : op = op'
      · subst he
        simp [hm, hc]
      · by_cases hc' : pyContains op' ti.text = true
        · simp [hm, hc, hc', dictGet_dictSet_ne _ _ _ _ (Ne.symm he)]
        · simp [hm, hc, hc']
    · -- op ∉ rest, matches
      by_cases he : op = op'
      · subst he
        simp [hm, hc, dictGet_dictSet_self]
      · have : (op ∈ op' :: rest) = False := by
          simp [he, hm]
        by_cases hc' : pyContains op' ti.text = true
        · simp [hm, hc, he, this, hc', dictGet_dictSet_ne _ _ _ _ (Ne.symm he)]
        · simp [hm, hc, he, this, hc']
    · -- op ∉ rest, no match
      by_cases he : op = op'
      · subst he
        simp [hm, hc]
      · have : (op ∈ op' :: rest) = False := by
          simp [he, hm]
        by_cases hc' : pyContains op' ti.text = true
        · simp [hm, hc, this, hc', dictGet_dictSet_ne _ _ _ _ (Ne.symm he)]
        · simp [hm, hc, this, hc']

theorem dictGet_insertActiveTexts (L : List String) (acts : List TextInfo)
    (d : Dict OpState) (op : String) :
    dictGet (insertActiveTexts L acts d) op =
      match lastSat (fun ti => pyContains op ti.text) acts with
      | some ti => if op ∈ L then some (activeState ti) else dictGet d op
      | none => dictGet d op := by
  induction acts generalizing d with
  | nil => simp [insertActiveTexts, lastSat]
  | cons ti rest ih =>
    have hcons : insertActiveTexts L (ti :: rest) d =
        insertActiveTexts L rest (insertOneActive L ti d) := by
      simp [insertActiveTexts, List.foldl_cons]
    rw [hcons, ih]
    rcases hlast : lastSat (fun ti => pyContains op ti.text) rest with _ | b
    · rw [dictGet_insertOneActive]
      by_cases hc : pyContains op ti.text = true
      · by_cases hL : op ∈ L <;> simp [lastSat, hlast, hc, hL]
      · simp [lastSat, hlast, hc]
    · by_cases hL : op ∈ L
      · simp [lastSat, hlast, hL]
      · simp [lastSat, hlast, hL, dictGet_insertOneActive, hL]

theorem dictGet_insertOneInactive (L : List String) (ti : TextInfo)
    (d : Dict OpState) (op : String) :
    dictGet (insertOneInactive L ti d) op =
      if op ∈ L ∧ pyContains op ti.text = true ∧ dictGet d op = none
      then some (inactiveState ti) else dictGet d op := by
  induction L generalizing d with
  | nil => simp [insertOneInactive]
  | cons op' rest ih =>
    have hcons : insertOneInactive (op' :: rest) ti d =
        insertOneInactive rest ti
          (if pyContains op' ti.text && (dictGet d op').isNone
           then dictSet d op' (inactiveState ti) else d) := by
      simp [insertOneInactive, List.foldl_cons]
    rw [hcons, ih]
    by_cases he : op = op'
    · subst he
      by_cases hc : pyContains op ti.text = true
      · rcases hd : dictGet d op with _ | v
        · simp [hc, hd, dictGet_dictSet_self]
        · simp [hc, hd]
      · simp [hc]
    · have hne : (op ∈ op' :: rest) ↔ op ∈ rest := by simp [he]
      by_cases hb : (pyContains op' ti.text && (dictGet d op').isNone) = true
      · simp only [hb, if_pos rfl, hne,
          dictGet_dictSet_ne _ _ _ _ (Ne.symm he)]
        simp [dictGet_dictSet_ne _ _ _ _ (Ne.symm he)]
      · simp only [hb]
        simp [hne, hb]

theorem dictGet_insertInactiveTexts (L : List String) (inacts : List TextInfo)
    (d : Dict OpState) (op : String) :
    dictGet (insertInactiveTexts L inacts d) op =
      match dictGet d op with
      | some v => some v
      | none =>
        if op ∈ L
        then (List.find? (fun ti => pyContains op ti.text) inacts).map inactiveState
        else none := by
  induction inacts generalizing d with
  | nil =>
    simp [insertInactiveTexts]
    rcases hd : dictGet d op with _ | v <;> simp
  | cons ti rest ih =>
    have hcons : insertInactiveTexts L (ti :: rest) d =
        insertInactiveTexts L rest (insertOneInactive L ti d) := by
      simp [insertInactiveTexts, List.foldl_cons]
    rw [hcons, ih, dictGet_insertOneInactive]
    rcases hd : dictGet d op with _ | v
    · by_cases hL : op ∈ L
      · by_cases hc : pyContains op ti.text = true
        · simp [hL, hc, List.find?]
        · simp [hL, hc, List.find?, hd]
      · simp [hL, hd]
    · simp [hd]

/-! ## Claim C5 -/

/-- **C5** (counterexample).  Two regions in OCR output order, both active
and both matching the carrier label `"CM"`: the `operator_states` map
retains the SECOND matching region (brightness 150), not the first
(brightness 200) — the active pass of `_compare_operator_selection`
overwrites earlier matches. -/
theorem operatorStates_duplicate_counterexample :
    (dictGet (buildOperatorStates
        [ { text := "CM x", brightnessLevel := "very_high", brightnessValue := 200
          , contrastValue := 40, status := "active", confidence := 95 }
        , { text := "CM y", brightnessLevel := "high", brightnessValue := 150
          , contrastValue := 40, status := "active", confidence := 90 } ]
        [] ["CM"]) "CM").map (fun st => st.brightnessValue) = some 150
    ∧ (150 : ℚ) ≠ 200 := by decide

/-- **C5** (amended).  The per-carrier state map binds each carrier name of
the lexicon to at most one state, deterministically: an active match always
takes precedence over inactive ones, the LAST active matching region (in
OCR output order) wins among active matches, and the FIRST inactive
matching region wins among inactive matches; names matching no region are
absent. -/
theorem buildOperatorStates_lookup (acts inacts : List TextInfo)
    (L : List String) (op : String) :
    dictGet (buildOperatorStates acts inacts L) op =
      if op ∈ L then
        match lastSat (fun ti => pyContains op ti.text) acts with
        | some ti => some (activeState ti)
        | none =>
          (List.find? (fun ti => pyContains op ti.text) inacts).map inactiveState
      else none := by
  unfold buildOperatorStates
  rw [dictGet_insertInactiveTexts, dictGet_insertActiveTexts]
  have hnil : dictGet ([] : Dict OpState) op = none := rfl
  rcases hlast : lastSat (fun ti => pyContains op ti.text) acts with _ | ti
  · by_cases hL : op ∈ L <;> simp [hnil, hL, hlast]
  · by_cases hL : op ∈ L <;> simp [hnil, hL, hlast]

/-! ## Claim C2 -/

theorem foldl_selStep_of_no_active (states : Dict OpState)
    (acc : Option String × ℚ)
    (h : ∀ kv ∈ states, kv.2.status ≠ "active") :
    states.foldl selStep acc = acc := by
  induction states generalizing acc with
  | nil => rfl
  | cons kv rest ih =>
    have h1 : kv.2.status ≠ "active" := h kv (by simp)
    have hstep : selStep acc kv = acc := by simp [selStep, h1]
    rw [List.foldl_cons, hstep]
    exact ih _ (fun kv2 hm => h kv2 (by simp [hm]))

theorem mem_insertOneInactive (L : List String) (ti : TextInfo)
    (d : Dict OpState) (kv : String × OpState)
    (h : kv ∈ insertOneInactive L ti d) :
    kv.2 = inactiveState ti ∨ kv ∈ d := by
  induction L generalizing d with
  | nil => exact Or.inr h
  | cons op' rest ih =>
    have hcons : insertOneInactive (op' :: rest) ti d =
        insertOneInactive rest ti
          (if pyContains op' ti.text && (dictGet d op').isNone
           then dictSet d op' (inactiveState ti) else d) := by
      simp [insertOneInactive, List.foldl_cons]
    rw [hcons] at h
    rcases ih _ h with h2 | h2
    · exact Or.inl h2
    · by_cases hb : (pyContains op' ti.text && (dictGet d op').isNone) = true
      · rw [if_pos hb] at h2
        rcases mem_dictSet _ _ _ _ h2 with h3 | h3
        · exact Or.inl h3
        · exact Or.inr h3
      · rw [if_neg hb] at h2
        exact Or.inr h2

theorem mem_insertInactiveTexts (L : List String) (inacts : List TextInfo)
    (d : Dict OpState) (kv : String × OpState)
    (h : kv ∈ insertInactiveTexts L inacts d) :
    (∃ ti, kv.2 = inactiveState ti) ∨ kv ∈ d := by
  induction inacts generalizing d with
  | nil => exact Or.inr h
  | cons ti rest ih =>
    have hcons : insertInactiveTexts L (ti :: rest) d =
        insertInactiveTexts L rest (insertOneInactive L ti d) := by
      simp [insertInactiveTexts, List.foldl_cons]
    rw [hcons] at h
    rcases ih _ h with h2 | h2
    · exact Or.inl h2
    · rcases mem_insertOneInactive _ _ _ _ h2 with h3 | h3
      · exact Or.inl ⟨ti, h3⟩
      · exact Or.inr h3

/-- **C2** (counterexample).  Two candidate carrier regions, neither
flagged active by the score rule (`200` vs `100` around average `150`,
zero contrast and sharpness): the classifier reports NO active operator —
it does not fall back to the brightest candidate `"A"`. -/
theorem noActive_no_fallback_counterexample :
    (compareOperatorSelection
        (analyzeActivationStates
          [⟨"A", 200, 0, 0, 90⟩, ⟨"B", 100, 0, 0, 90⟩]).activeTexts
        (analyzeActivationStates
          [⟨"A", 200, 0, 0, 90⟩, ⟨"B", 100, 0, 0, 90⟩]).inactiveTexts
        ["A", "B"]).availableOperators = ["A", "B"]
    ∧ ((compareOperatorSelection
        (analyzeActivationStates
          [⟨"A", 200, 0, 0, 90⟩, ⟨"B", 100, 0, 0, 90⟩]).activeTexts
        (analyzeActivationStates
          [⟨"A", 200, 0, 0, 90⟩, ⟨"B", 100, 0, 0, 90⟩]).inactiveTexts
        ["A", "B"]).operatorStates.all
          (fun kv => kv.2.status == "inactive")) = true
    ∧ (compareOperatorSelection
        (analyzeActivationStates
          [⟨"A", 200, 0, 0, 90⟩, ⟨"B", 100, 0, 0, 90⟩]).activeTexts
        (analyzeActivationStates
          [⟨"A", 200, 0, 0, 90⟩, ⟨"B", 100, 0, 0, 90⟩]).inactiveTexts
        ["A", "B"]).activeOperator = none
    ∧ (none : Option String) ≠ some "A" := by
  have h1 : analyzeActivationStates
      [⟨"A", 200, 0, 0, 90⟩, ⟨"B", 100, 0, 0, 90⟩] =
      { activeTexts := []
      , inactiveTexts :=
          [ ⟨"A", "very_high", 200, 0, "inactive", 90⟩
          , ⟨"B", "low", 100, 0, "inactive", 90⟩ ]
      , averageBrightness := some 150 } := by
    norm_num [analyzeActivationStates, regionIsActive, determineActivationStatus,
      brightnessThreshold, contrastThreshold, List.filter, regionTextInfo,
      categorizeBrightness]
  rw [h1]
  decide

/-- **C2** (amended).  Whenever no candidate region is flagged active by
the score rule (the activation analysis has an empty `active_texts` list),
the classifier reports no active operator at all: `active_operator` is
`None`.  There is no most-bright-wins fallback, and no tie threshold is
consulted. -/
theorem noActive_means_noOperator (rs : List RegionResult) (L : List String)
    (h : (analyzeActivationStates rs).activeTexts = []) :
    (compareOperatorSelection (analyzeActivationStates rs).activeTexts
        (analyzeActivationStates rs).inactiveTexts L).activeOperator = none := by
  rw [h]
  show selectActiveOperator
      (buildOperatorStates [] (analyzeActivationStates rs).inactiveTexts L) = none
  unfold selectActiveOperator
  have hstates : insertActiveTexts L [] ([] : Dict OpState) = [] := rfl
  have hall : ∀ kv ∈ buildOperatorStates []
      (analyzeActivationStates rs).inactiveTexts L, kv.2.status ≠ "active" := by
    intro kv hm
    unfold buildOperatorStates at hm
    rw [hstates] at hm
    rcases mem_insertInactiveTexts _ _ _ _ hm with ⟨ti, hti⟩ | h2
    · rw [hti]
      simp [inactiveState]
    · simp at h2
  rw [foldl_selStep_of_no_active _ _ hall]

/-- Witness for `noActive_means_noOperator` at a concrete two-candidate
input where no region is active. -/
theorem noActive_means_noOperator_witness :
    (analyzeActivationStates
        [⟨"A", 200, 0, 0, 90⟩, ⟨"B", 100, 0, 0, 90⟩]).activeTexts = []
    ∧ (compareOperatorSelection
        (analyzeActivationStates
          [⟨"A", 200, 0, 0, 90⟩, ⟨"B", 100, 0, 0, 90⟩]).activeTexts
        (analyzeActivationStates
          [⟨"A", 200, 0, 0, 90⟩, ⟨"B", 100, 0, 0, 90⟩]).inactiveTexts
        ["A", "B"]).activeOperator = none := by
  have hempty : (analyzeActivationStates
      [⟨"A", 200, 0, 0, 90⟩, ⟨"B", 100, 0, 0, 90⟩]).activeTexts = [] := by
    norm_num [analyzeActivationStates, regionIsActive, determineActivationStatus,
      brightnessThreshold, contrastThreshold, List.filter]
  exact ⟨hempty,
    noActive_means_noOperator [⟨"A", 200, 0, 0, 90⟩, ⟨"B", 100, 0, 0, 90⟩]
      ["A", "B"] hempty⟩

/-! ## Claim C3 -/

theorem determineActivationStatus_self (m c s : ℚ) :
    determineActivationStatus m m c s
      = (decide (30 < c) && decide (100 < s)) := by
  unfold determineActivationStatus brightnessThreshold contrastThreshold
  by_cases hc : c > 30 <;> by_cases hs : s > 100 <;>
    simp [hc, hs, sub_self] <;> norm_num

theorem analyzeActivationStates_singleton (r : RegionResult) :
    analyzeActivationStates [r] =
      if regionIsActive r.brightnessMean r then
        { activeTexts := [regionTextInfo r.brightnessMean r], inactiveTexts := []
        , averageBrightness := some r.brightnessMean }
      else
        { activeTexts := [], inactiveTexts := [regionTextInfo r.brightnessMean r]
        , averageBrightness := some r.brightnessMean } := by
  by_cases h : regionIsActive r.brightnessMean r <;>
    simp [analyzeActivationStates, List.filter, h]

/-- **C3** (counterexample).  A single candidate region with brightness
mean `200` but zero contrast and sharpness: the score test is applied
(brightness indicator is vacuous because the region equals the average),
the region is classified inactive, and NO active operator is reported,
contradicting the claim that the single candidate is always returned. -/
theorem singleCandidate_counterexample :
    (compareOperatorSelection
        (analyzeActivationStates [⟨"A", 200, 0, 0, 95⟩]).activeTexts
        (analyzeActivationStates [⟨"A", 200, 0, 0, 95⟩]).inactiveTexts
        ["A"]).availableOperators = ["A"]
    ∧ (compareOperatorSelection
        (analyzeActivationStates [⟨"A", 200, 0, 0, 95⟩]).activeTexts
        (analyzeActivationStates [⟨"A", 200, 0, 0, 95⟩]).inactiveTexts
        ["A"]).activeOperator = none := by
  have h1 : analyzeActivationStates [⟨"A", 200, 0, 0, 95⟩] =
      { activeTexts := []
      , inactiveTexts := [⟨"A", "very_high", 200, 0, "inactive", 95⟩]
      , averageBrightness := some 200 } := by
    norm_num [analyzeActivationStates, regionIsActive, determineActivationStatus,
      brightnessThreshold, contrastThreshold, List.filter, regionTextInfo,
      categorizeBrightness]
  rw [h1]
  decide

/-- **C3** (amended).  With exactly one candidate carrier region whose text
matches the operator, the threshold-based score test IS applied: the
brightness indicator can never hold (the region's brightness equals the
average of the single-element set), so the candidate is reported as the
active operator iff its contrast exceeds 30, its sharpness exceeds 100,
and its brightness mean is positive (the selection loop starts its running
maximum at 0); otherwise no active operator is reported. -/
theorem singleCandidate_needs_thresholds (r : RegionResult) (op : String)
    (h : pyContains op r.text = true) :
    (compareOperatorSelection (analyzeActivationStates [r]).activeTexts
        (analyzeActivationStates [r]).inactiveTexts [op]).activeOperator
      = if 30 < r.contrast ∧ 100 < r.sharpness ∧ 0 < r.brightnessMean
        then some op else none := by
  rw [analyzeActivationStates_singleton]
  have hact : regionIsActive r.brightnessMean r
      = (decide (30 < r.contrast) && decide (100 < r.sharpness)) :=
    determineActivationStatus_self _ _ _
  by_cases hc : 30 < r.contrast <;> by_cases hs : 100 < r.sharpness
  · have hA : regionIsActive r.brightnessMean r = true := by simp [hact, hc, hs]
    simp only [hA, if_pos]
    simp [compareOperatorSelection, buildOperatorStates, insertActiveTexts,
      insertOneActive, insertInactiveTexts, insertOneInactive, regionTextInfo, h,
      dictSet, selectActiveOperator, selStep, activeState, hc, hs]
    by_cases hm : 0 < r.brightnessMean <;> simp [hm]
  all_goals {
    have hA : regionIsActive r.brightnessMean r = false := by simp [hact, hc, hs]
    simp only [hA]
    simp [compareOperatorSelection, buildOperatorStates, insertActiveTexts,
      insertOneActive, insertInactiveTexts, insertOneInactive, regionTextInfo, h,
      dictSet, dictGet, selectActiveOperator, selStep, inactiveState, hc, hs]
  }

/-- Witness for `singleCandidate_needs_thresholds` at a concrete single
candidate with high contrast and sharpness. -/
theorem singleCandidate_needs_thresholds_witness :
    pyContains "A" "A" = true
    ∧ (compareOperatorSelection
        (analyzeActivationStates [⟨"A", 100, 40, 200, 95⟩]).activeTexts
        (analyzeActivationStates [⟨"A", 100, 40, 200, 95⟩]).inactiveTexts
        ["A"]).activeOperator
      = if (30 : ℚ) < 40 ∧ (100 : ℚ) < 200 ∧ (0 : ℚ) < 100
        then some "A" else none :=
  ⟨by decide,
   singleCandidate_needs_thresholds ⟨"A", 100, 40, 200, 95⟩ "A" (by decide)⟩

/-! ## Claim C8: bounding-box clamping in `analyze_text_brightness` -/

/-- The region-clamping logic at the top of the per-region loop of
`VisualAnalyzer.analyze_text_brightness`:
`x = max(0, x)`, `y = max(0, y)`, `w = min(w, W - x)`, `h = min(h, H - y)`,
then the region is profiled only `if w > 0 and h > 0` (otherwise it is
skipped, producing no brightness profile).  `W`/`H` are
`gray.shape[1]`/`gray.shape[0]`. -/
def clampRegion (W H x y w h : ℤ) : Option (ℤ × ℤ × ℤ × ℤ) :=
  let x' := max 0 x
  let y' := max 0 y
  let w' := min w (W - x')
  let h' := min h (H - y')
  if 0 < w' ∧ 0 < h' then some (x', y', w', h') else none

/-- **C8.**  The profiler clamps `x`,`y` to be non-negative and shrinks
`w`,`h` so the crop stays inside the image: every profiled region satisfies
`0 ≤ x'`, `0 ≤ y'`, `0 < w'`, `0 < h'`, `x' + w' ≤ W`, `y' + h' ≤ H`.
A negative `x` does not raise — it behaves exactly like `x = 0`.  A box
whose clamped area is non-positive yields no profile (skipped, not an
error). -/
theorem clampRegion_spec (W H x y w h : ℤ) :
    (∀ x' y' w' h', clampRegion W H x y w h = some (x', y', w', h') →
        0 ≤ x' ∧ 0 ≤ y' ∧ 0 < w' ∧ 0 < h' ∧ x' + w' ≤ W ∧ y' + h' ≤ H)
    ∧ clampRegion W H x y w h = clampRegion W H (max 0 x) y w h
    ∧ (min w (W - max 0 x) ≤ 0 ∨ min h (H - max 0 y) ≤ 0 →
        clampRegion W H x y w h = none) := by
  refine ⟨?_, ?_, ?_⟩
  · intro x' y' w' h' hsome
    simp only [clampRegion] at hsome
    split at hsome
    · simp only [Option.some.injEq, Prod.mk.injEq] at hsome
      obtain ⟨rfl, rfl, rfl, rfl⟩ := hsome
      omega
    · exact absurd hsome (by simp)
  · simp only [clampRegion]
    rw [← max_assoc, max_self]
  · intro hle
    simp only [clampRegion]
    rw [if_neg (by omega)]

/-- Witness for `clampRegion_spec`: a box with negative `x` is clamped and
profiled with the stated bounds. -/
theorem clampRegion_spec_witness :
    clampRegion 100 50 (-5) 3 200 10 = some (0, 3, 100, 10)
    ∧ (0 ≤ (0 : ℤ) ∧ 0 ≤ (3 : ℤ) ∧ 0 < (100 : ℤ) ∧ 0 < (10 : ℤ)
        ∧ (0 : ℤ) + 100 ≤ 100 ∧ (3 : ℤ) + 10 ≤ 50) :=
  ⟨by decide,
   (clampRegion_spec 100 50 (-5) 3 200 10).1 0 3 100 10 (by decide)⟩

/-! ## Regex models for `data_extractor.py`

Python's `re.search` scans start positions left to right and returns the
first position at which the pattern matches; `re.findall` additionally
continues scanning after the end of each (non-overlapping) match.  For the
patterns used by `data_extractor.py` greedy matching never needs to
backtrack (after a maximal digit/whitespace run the leftover character can
never match the next pattern token), so each pattern is modelled by a
deterministic matcher on `List Char`.  Python's `\s` is modelled by
`Char.isWhitespace`. -/

/-- `re.search`: try the matcher at each start position, leftmost wins. -/
def reSearch {α : Type} (m : List Char → Option α) : List Char → Option α
  | [] => none
  | c :: rest =>
    match m (c :: rest) with
    | some a => some a
    | none => reSearch m rest

/-- Matcher for `(\d+)\s*ms` at one position: a nonempty digit run, then
whitespace, then the literal `ms`; yields the digit group. -/
def matchPingAt (s : List Char) : Option (List Char) :=
  let ds := s.takeWhile Char.isDigit
  if ds.isEmpty then none
  else
    let r1 := (s.dropWhile Char.isDigit).dropWhile Char.isWhitespace
    if r1.take 2 = ['m', 's'] then some ds else none

/-- `re.search(r'(\d+)\s*ms', text)`: leftmost match of the ping pattern
(this is exactly what `_extract_speed_test_info` runs for the `ping`
field). -/
def searchPing (s : List Char) : Option (List Char) :=
  reSearch matchPingAt s

/-- All positions (in left-to-right order) at which the ping pattern
matches, with their digit groups.  Used to state declaratively that the
extractor takes the first match. -/
def pingMatches : List Char → List (List Char)
  | [] => []
  | c :: rest =>
    match matchPingAt (c :: rest) with
    | some ds => ds :: pingMatches rest
    | none => pingMatches rest

/-- Numeric value of a digit group (used only to state the noise-floor
reading of the spec). -/
def natOfDigits (ds : List Char) : ℕ :=
  ds.foldl (fun n c => 10 * n + (c.toNat - '0'.toNat)) 0

/-- The `\.?` token: consume a leading dot if present, returning the
consumed part and the remainder. -/
def dotSplit (r1 : List Char) : List Char × List Char :=
  match r1 with
  | '.' :: t => (['.'], t)
  | _ => ([], r1)

/-- Matcher for `(\d+\.?\d*)\s*Mbps` at one position: digit run, optional
dot, optional digit run, whitespace, literal `Mbps`; yields the numeric
group and the remainder of the input after the match (for non-overlapping
`findall` scanning). -/
def matchMbpsAt (s : List Char) : Option (List Char × List Char) :=
  let ds := s.takeWhile Char.isDigit
  if ds.isEmpty then none
  else
    let dotr2 := dotSplit (s.dropWhile Char.isDigit)
    let ds2 := dotr2.2.takeWhile Char.isDigit
    let r3 := (dotr2.2.dropWhile Char.isDigit).dropWhile Char.isWhitespace
    if r3.take 4 = ['M', 'b', 'p', 's']
    then some (ds ++ dotr2.1 ++ ds2, r3.drop 4) else none

theorem length_dropWhile_le {α : Type} (p : α → Bool) (l : List α) :
    (l.dropWhile p).length ≤ l.length := by
  induction l with
  | nil => simp
  | cons a t ih =>
    by_cases h : p a = true <;> simp [List.dropWhile, h]
    omega

theorem dotSplit_snd_le (r1 : List Char) :
    (dotSplit r1).2.length ≤ r1.length := by
  unfold dotSplit
  split <;> simp

theorem matchMbpsAt_rest_lt (s g rest : List Char)
    (h : matchMbpsAt s = some (g, rest)) : rest.length < s.length := by
  simp only [matchMbpsAt] at h
  split at h
  · exact absurd h (by simp)
  · next hds =>
    split at h
    · simp only [Option.some.injEq, Prod.mk.injEq] at h
      obtain ⟨-, rfl⟩ := h
      have h1 : (s.dropWhile Char.isDigit).length < s.length := by
        have hsplit := List.takeWhile_append_dropWhile (p := Char.isDigit) (l := s)
        have hlen := congrArg List.length hsplit
        rw [List.length_append] at hlen
        have hpos : 0 < (s.takeWhile Char.isDigit).length := by
          cases hh : s.takeWhile Char.isDigit with
          | nil => exact absurd hh (by simpa [List.isEmpty_iff] using hds)
          | cons a t => simp [hh]
        omega
      have h2 := dotSplit_snd_le (s.dropWhile Char.isDigit)
      have h3 := length_dropWhile_le Char.isDigit
        (dotSplit (s.dropWhile Char.isDigit)).2
      have h4 := length_dropWhile_le Char.isWhitespace
        ((dotSplit (s.dropWhile Char.isDigit)).2.dropWhile Char.isDigit)
      have h5 : ((((dotSplit (s.dropWhile Char.isDigit)).2.dropWhile
            Char.isDigit).dropWhile Char.isWhitespace).drop 4).length =
          (((dotSplit (s.dropWhile Char.isDigit)).2.dropWhile
            Char.isDigit).dropWhile Char.isWhitespace).length - 4 := by
        simp
      omega
    · exact absurd h (by simp)

def findallMbpsAux : ℕ → List Char → List (List Char)
  | 0, _ => []
  | _ + 1, [] => []
  | fuel + 1, c :: rest =>
    match matchMbpsAt (c :: rest) with
    | some (g, after) => g :: findallMbpsAux fuel after
    | none => findallMbpsAux fuel rest

/-- `re.findall(r'(\d+\.?\d*)\s*Mbps', text)`: scan left to right,
collecting non-overlapping matches and continuing after the end of each
match.  The fuel `s.length` is never exhausted because every step consumes
at least one character (`matchMbpsAt_rest_lt`). -/
def findallMbps (s : List Char) : List (List Char) :=
  findallMbpsAux s.length s

/-! ## JSON-like values and the structured records of `data_extractor.py` -/

/-- Values stored in the structured-data dicts. -/
inductive Val where
  | str : String → Val
  | num : ℚ → Val
  | vlist : List Val → Val
  | vdict : List (String × Val) → Val

/-- A Python conditional dict entry: `if v is matched: d[k] = v`. -/
def optEntry (k : String) (v : Option Val) : Dict Val :=
  match v with
  | some x => [(k, x)]
  | none => []

/-- `f"{value}Mbps"` as stored by `_extract_speed_test_info`. -/
def mbpsVal (g : List Char) : Val := Val.str (String.mk g ++ "Mbps")

/-- `f"{value}ms"` as stored by `_extract_speed_test_info`. -/
def pingVal (ds : List Char) : Val := Val.str (String.mk ds ++ "ms")

/-- The `available_operators` list built by `_extract_speed_test_info`
from `comparison_result['operator_states']`. -/
def availableOperatorsVal (states : Dict OpState) : Val :=
  Val.vlist (states.map (fun kv =>
    Val.vdict [ ("name", Val.str kv.1)
              , ("status", Val.str kv.2.status)
              , ("brightness_level", Val.str kv.2.brightnessLevel) ]))

/-- The entries contributed by the visual analysis inside
`_extract_speed_test_info`: `active_operator` when the comparison result
carries a truthy active operator, then `available_operators` when the
state dict is nonempty.  `va = none` models both a missing visual analysis
and one without a `comparison_result` key. -/
def vaSpeedEntries (va : Option ComparisonResult) : Dict Val :=
  match va with
  | none => []
  | some cr =>
    (match cr.activeOperator with
     | some op => if op = "" then [] else [("active_operator", Val.str op)]
     | none => [])
    ++ (if cr.operatorStates.isEmpty then []
        else [("available_operators", availableOperatorsVal cr.operatorStates)])

/-- `DataExtractor._extract_speed_test_info`: ping via `re.search` of
`(\d+)\s*ms`, download/upload as the first and second `findall` matches of
`(\d+\.?\d*)\s*Mbps`, then the visual-analysis entries. -/
def extractSpeedTestInfo (text : String) (va : Option ComparisonResult) : Dict Val :=
  let l := text.toList
  optEntry "ping" ((searchPing l).map pingVal)
  ++ optEntry "download" (((findallMbps l).get? 0).map mbpsVal)
  ++ optEntry "upload" (((findallMbps l).get? 1).map mbpsVal)
  ++ vaSpeedEntries va

/-! ## Dictionary lookup lemmas for entry lists -/

theorem dictGet_append {α : Type} (d1 d2 : Dict α) (k : String) :
    dictGet (d1 ++ d2) k =
      match dictGet d1 k with
      | some v => some v
      | none => dictGet d2 k := by
  induction d1 with
  | nil => simp [dictGet]
  | cons kv t ih =>
    obtain ⟨k0, v0⟩ := kv
    by_cases h : k0 = k <;> simp [dictGet, h, ih]

theorem dictGet_optEntry (k : String) (v : Option Val) (k' : String) :
    dictGet (optEntry k v) k' =
      if k = k' then v else none := by
  cases v <;> by_cases h : k = k' <;> simp [optEntry, dictGet, h]

theorem dictGet_eq_none_of_keys {α : Type} (d : Dict α) (k : String)
    (h : ∀ kv ∈ d, kv.1 ≠ k) : dictGet d k = none := by
  induction d with
  | nil => rfl
  | cons kv t ih =>
    obtain ⟨k0, v0⟩ := kv
    have h0 : k0 ≠ k := h (k0, v0) (by simp)
    simp [dictGet, h0]
    exact ih (fun kv2 hm => h kv2 (by simp [hm]))

theorem mem_optEntry_key (k : String) (v : Option Val) (kv : String × Val)
    (h : kv ∈ optEntry k v) : kv.1 = k := by
  cases v <;> simp [optEntry] at h
  simp [h]

theorem mem_vaSpeedEntries_key (va : Option ComparisonResult)
    (kv : String × Val) (h : kv ∈ vaSpeedEntries va) :
    kv.1 = "active_operator" ∨ kv.1 = "available_operators" := by
  match va with
  | none => simp [vaSpeedEntries] at h
  | some cr =>
    simp only [vaSpeedEntries, List.mem_append] at h
    rcases h with h | h
    · left
      match hc : cr.activeOperator with
      | none => rw [hc] at h; simp at h
      | some op =>
        rw [hc] at h
        by_cases he : op = "" <;> simp [he] at h
        simp [h]
    · right
      by_cases he : cr.operatorStates.isEmpty <;> simp [he] at h
      simp [h]

/-! ## Claim C6 -/

theorem searchPing_eq_head (s : List Char) :
    searchPing s = (pingMatches s).head? := by
  unfold searchPing
  induction s with
  | nil => rfl
  | cons c rest ih =>
    rw [reSearch, pingMatches]
    cases matchPingAt (c :: rest) with
    | some ds => rfl
    | none => exact ih

/-- **C6** (counterexample).  On `"5ms 100ms"` the as-written claim
predicts the first value above the noise floor of 10, namely `100`; the
code's `re.search` returns the first match `5` regardless of the floor. -/
theorem ping_noise_floor_counterexample :
    searchPing ("5ms 100ms".toList) = some ['5']
    ∧ (pingMatches ("5ms 100ms".toList)).find?
        (fun ds => decide (10 < natOfDigits ds)) = some ['1', '0', '0']
    ∧ (['5'] : List Char) ≠ ['1', '0', '0'] := by decide

/-- **C6** (amended).  The `ping` field holds the FIRST integer-`ms` match
of the text in left-to-right order, regardless of its magnitude — no noise
floor is applied.  (`pingMatches` lists the matches at every start
position, leftmost first.) -/
theorem extractPing_first_match (text : String) (va : Option ComparisonResult) :
    dictGet (extractSpeedTestInfo text va) "ping"
      = ((pingMatches text.toList).head?).map pingVal := by
  unfold extractSpeedTestInfo
  simp only [List.append_assoc]
  rw [dictGet_append, dictGet_optEntry, if_pos rfl, searchPing_eq_head]
  cases (pingMatches text.toList).head? with
  | some ds => rfl
  | none =>
    show _ = (none : Option Val)
    apply dictGet_eq_none_of_keys
    intro kv hm
    simp only [List.mem_append] at hm
    rcases hm with hm | hm | hm
    · rw [mem_optEntry_key _ _ _ hm]
      decide
    · rw [mem_optEntry_key _ _ _ hm]
      decide
    · rcases mem_vaSpeedEntries_key _ _ hm with h | h <;> rw [h] <;> decide

/-! ## Claim C7 -/

/-- **C7.**  The speed-test extractor assigns the FIRST decimal-`Mbps`
token of the text to `download` and the SECOND to `upload`; with fewer
than two tokens the missing field is simply absent (no error).  The code
applies this positional policy unconditionally, so in particular it holds
for texts with no directional label near the Mbps numbers. -/
theorem mbps_positional (text : String) (va : Option ComparisonResult)
    (h : pyContains "下载" text = false ∧ pyContains "上传" text = false) :
    dictGet (extractSpeedTestInfo text va) "download"
      = ((findallMbps text.toList).get? 0).map mbpsVal
    ∧ dictGet (extractSpeedTestInfo text va) "upload"
      = ((findallMbps text.toList).get? 1).map mbpsVal
    ∧ ((findallMbps text.toList).length < 2 →
        dictGet (extractSpeedTestInfo text va) "upload" = none) := by
  have hrest : ∀ k : String, (∀ kv ∈ vaSpeedEntries va, kv.1 ≠ k) →
      dictGet (vaSpeedEntries va) k = none := fun k hk =>
    dictGet_eq_none_of_keys _ _ hk
  have hdl : dictGet (extractSpeedTestInfo text va) "download"
      = ((findallMbps text.toList).get? 0).map mbpsVal := by
    unfold extractSpeedTestInfo
    simp only [List.append_assoc, dictGet_append, dictGet_optEntry]
    simp only [show ("ping" = "download") = False by simp,
      show ("download" = "download") = True by simp, if_false, if_true]
    cases ((findallMbps text.toList).get? 0).map mbpsVal with
    | some v => rfl
    | none =>
      show _ = (none : Option Val)
      simp only [show ("upload" = "download") = False by simp, if_false]
      apply hrest
      intro kv hm
      rcases mem_vaSpeedEntries_key _ _ hm with h | h <;> rw [h] <;> decide
  have hul : dictGet (extractSpeedTestInfo text va) "upload"
      = ((findallMbps text.toList).get? 1).map mbpsVal := by
    unfold extractSpeedTestInfo
    simp only [List.append_assoc, dictGet_append, dictGet_optEntry]
    simp only [show ("ping" = "upload") = False by simp,
      show ("download" = "upload") = False by simp,
      show ("upload" = "upload") = True by simp, if_false, if_true]
    cases ((findallMbps text.toList).get? 1).map mbpsVal with
    | some v => rfl
    | none =>
      show _ = (none : Option Val)
      apply hrest
      intro kv hm
      rcases mem_vaSpeedEntries_key _ _ hm with h | h <;> rw [h] <;> decide
  refine ⟨hdl, hul, fun hlen => ?_⟩
  rw [hul, List.get?_eq_none.mpr (by omega)]
  rfl

/-- Witness for `mbps_positional` on `"25.5Mbps 1.7Mbps"` (no directional
labels): `download` is the first token `25.5`, `upload` the second `1.7`. -/
theorem mbps_positional_witness :
    (pyContains "下载" "25.5Mbps 1.7Mbps" = false
      ∧ pyContains "上传" "25.5Mbps 1.7Mbps" = false)
    ∧ findallMbps ("25.5Mbps 1.7Mbps".toList)
        = [['2', '5', '.', '5'], ['1', '.', '7']]
    ∧ (dictGet (extractSpeedTestInfo "25.5Mbps 1.7Mbps" none) "download"
        = ((findallMbps ("25.5Mbps 1.7Mbps".toList)).get? 0).map mbpsVal
      ∧ dictGet (extractSpeedTestInfo "25.5Mbps 1.7Mbps" none) "upload"
        = ((findallMbps ("25.5Mbps 1.7Mbps".toList)).get? 1).map mbpsVal
      ∧ ((findallMbps ("25.5Mbps 1.7Mbps".toList)).length < 2 →
          dictGet (extractSpeedTestInfo "25.5Mbps 1.7Mbps" none) "upload" = none)) :=
  ⟨⟨by decide, by decide⟩, by decide,
   mbps_positional "25.5Mbps 1.7Mbps" none ⟨by decide, by decide⟩⟩

/-! ## `_extract_network_info` -/

/-- Matcher for `-?\d+` at one position (Python's optional sign followed by
a nonempty digit run; a lone `-` without digits does not match). -/
def matchSignedIntAt (s : List Char) : Option (List Char) :=
  match s with
  | '-' :: rest =>
    let ds := rest.takeWhile Char.isDigit
    if ds.isEmpty then none else some ('-' :: ds)
  | _ =>
    let ds := s.takeWhile Char.isDigit
    if ds.isEmpty then none else some ds

/-- Matcher for `LABEL[:\s]*(-?\d+)` with `re.IGNORECASE` at one position
(`label` is given in upper case; Python's `.upper()` on the ASCII labels is
modelled by `Char.toUpper`). -/
def matchLabelNumAt (label : List Char) (s : List Char) : Option (List Char) :=
  if (s.take label.length).map Char.toUpper = label then
    matchSignedIntAt
      ((s.drop label.length).dropWhile (fun c => c == ':' || c.isWhitespace))
  else none

/-- Matcher for `(2G|3G|4G|5G)` at one position (case sensitive — the
pattern is compiled without flags). -/
def matchNetTypeAt (s : List Char) : Option (List Char) :=
  match s with
  | c1 :: 'G' :: _ =>
    if c1 = '2' ∨ c1 = '3' ∨ c1 = '4' ∨ c1 = '5' then some [c1, 'G'] else none
  | _ => none

/-- Matcher for `\d+\.\d+` at one position, returning the group and the
remainder. -/
def matchDecimalAt (s : List Char) : Option (List Char × List Char) :=
  let ds := s.takeWhile Char.isDigit
  if ds.isEmpty then none
  else
    match s.dropWhile Char.isDigit with
    | '.' :: r2 =>
      let ds2 := r2.takeWhile Char.isDigit
      if ds2.isEmpty then none
      else some (ds ++ '.' :: ds2, r2.dropWhile Char.isDigit)
    | _ => none

/-- Matcher for `(\d+\.\d+)/(\d+\.\d+)` at one position; the stored value
is `f"{group1}/{group2}"`, i.e. the whole match. -/
def matchCoordsAt (s : List Char) : Option (List Char) :=
  match matchDecimalAt s with
  | some (g1, r) =>
    match r with
    | '/' :: r2 =>
      match matchDecimalAt r2 with
      | some (g2, _) => some (g1 ++ '/' :: g2)
      | none => none
    | _ => none
  | none => none

/-- `self.operators` — the four carrier names of the lexicon, in the order
of the alternation `(中国移动|中国联通|中国电信|中国广电)`. -/
def operatorLexicon : List String := ["中国移动", "中国联通", "中国电信", "中国广电"]

/-- Matcher for a literal alternation at one position: the first
alternative that is a prefix of the suffix. -/
def matchAltAt (alts : List String) (s : List Char) : Option (List Char) :=
  (alts.find? (fun a => a.toList.isPrefixOf s)).map (fun a => a.toList)

/-- A matched group stored as a string value. -/
def strGroupVal (g : List Char) : Val := Val.str (String.mk g)

/-- `DataExtractor._extract_network_info`: signal-strength sub-dict
(`rsrp`/`rsrq`/`sinr`, included only when nonempty), then `network_type`,
`location` and `operator`, each key absent when its pattern has no match. -/
def extractNetworkInfo (text : String) : Dict Val :=
  let l := text.toList
  let ss : Dict Val :=
    optEntry "rsrp" ((reSearch (matchLabelNumAt ['R', 'S', 'R', 'P']) l).map strGroupVal)
    ++ optEntry "rsrq" ((reSearch (matchLabelNumAt ['R', 'S', 'R', 'Q']) l).map strGroupVal)
    ++ optEntry "sinr" ((reSearch (matchLabelNumAt ['S', 'I', 'N', 'R']) l).map strGroupVal)
  (if ss.isEmpty then [] else [("signal_strength", Val.vdict ss)])
  ++ optEntry "network_type" ((reSearch matchNetTypeAt l).map strGroupVal)
  ++ optEntry "location" ((reSearch matchCoordsAt l).map strGroupVal)
  ++ optEntry "operator" ((reSearch (matchAltAt operatorLexicon) l).map strGroupVal)

/-! ## `_enhance_network_info_extraction` and `_find_nearby_number` -/

/-- One element of `word_data` as consumed by the enhancement pass. -/
structure Word where
  text : String
  conf : ℚ
  left : ℤ
  top : ℤ
  width : ℤ
  height : ℤ

/-- The word dict stored verbatim under `position`. -/
def wordVal (w : Word) : Val :=
  Val.vdict
    [ ("text", Val.str w.text), ("left", Val.num (w.left : ℚ))
    , ("top", Val.num (w.top : ℚ)), ("width", Val.num (w.width : ℚ))
    , ("height", Val.num (w.height : ℚ)), ("conf", Val.num w.conf) ]

/-- The `{'value': ..., 'position': ...}` dict of the detailed entries. -/
def detailVal (n : String) (w : Word) : Val :=
  Val.vdict [("value", Val.str n), ("position", wordVal w)]

/-- `word_text.upper()` (ASCII letters; CJK characters are unaffected, as
in Python). -/
def upperStr (t : String) : String := String.mk (t.toList.map Char.toUpper)

/-- `label in word_text.upper()` for an upper-case `label`. -/
def containsCI (label t : String) : Bool := pyContains label (upperStr t)

/-- `DataExtractor._find_nearby_number` with the default `search_range=3`:
scan indices `max(0, i-3) ≤ j < min(len, i+4)` in ascending order, skip
`j = i`, and return the first `-?\d+` match inside the stripped word
text. -/
def findNearbyNumber (ws : List Word) (i : ℕ) : Option String :=
  let start := i - 3
  let stop := min ws.length (i + 3 + 1)
  ((List.range (stop - start)).map (fun j => j + start)).findSome? (fun j =>
    if j = i then none
    else
      match ws.get? j with
      | some w =>
        (reSearch matchSignedIntAt w.text.trim.toList).map (fun ds => String.mk ds)
      | none => none)

/-- Loop body of `_enhance_network_info_extraction` for index `i`:
an `RSRP`/`RSRQ`/`SINR` keyword (elif chain, case insensitive, on the
stripped word) stores a detailed entry when a nearby number exists
(overwriting any earlier entry for the same key). -/
def enhanceNIStep (ws : List Word) (d : Dict Val) (i : ℕ) : Dict Val :=
  match ws.get? i with
  | none => d
  | some w =>
    let wt := w.text.trim
    if containsCI "RSRP" wt then
      match findNearbyNumber ws i with
      | some n => dictSet d "rsrp_detailed" (detailVal n w)
      | none => d
    else if containsCI "RSRQ" wt then
      match findNearbyNumber ws i with
      | some n => dictSet d "rsrq_detailed" (detailVal n w)
      | none => d
    else if containsCI "SINR" wt then
      match findNearbyNumber ws i with
      | some n => dictSet d "sinr_detailed" (detailVal n w)
      | none => d
    else d

/-- `DataExtractor._enhance_network_info_extraction` (its `text` argument
is unused by the Python code as well). -/
def enhanceNetworkInfo (text : String) (ws : List Word) : Dict Val :=
  (List.range ws.length).foldl (enhanceNIStep ws) []

/-! ## `_enhance_speed_test_extraction` -/

/-- Matcher for `(\d+\.?\d*)\s*Mbps` with `re.IGNORECASE` at one position,
returning only the group. -/
def matchMbpsGroupCIAt (s : List Char) : Option (List Char) :=
  let ds := s.takeWhile Char.isDigit
  if ds.isEmpty then none
  else
    let dotr2 := dotSplit (s.dropWhile Char.isDigit)
    let ds2 := dotr2.2.takeWhile Char.isDigit
    let r3 := (dotr2.2.dropWhile Char.isDigit).dropWhile Char.isWhitespace
    if (r3.take 4).map Char.toUpper = ['M', 'B', 'P', 'S']
    then some (ds ++ dotr2.1 ++ ds2) else none

/-- Matcher for `(\d+)\s*ms` with `re.IGNORECASE` at one position,
returning only the group. -/
def matchMsGroupCIAt (s : List Char) : Option (List Char) :=
  let ds := s.takeWhile Char.isDigit
  if ds.isEmpty then none
  else
    let r1 := (s.dropWhile Char.isDigit).dropWhile Char.isWhitespace
    if (r1.take 2).map Char.toUpper = ['M', 'S'] then some ds else none

/-- `re.search` of a group matcher restricted to start positions before
the first newline (the lazy `.*?` of `LABEL.*?GROUP` cannot cross `\n`
because `.` does not match newlines without `re.DOTALL`; whitespace inside
the group's own `\s*` still may). -/
def reSearchNoNewline (gm : List Char → Option (List Char)) :
    List Char → Option (List Char)
  | [] => none
  | c :: rest =>
    match gm (c :: rest) with
    | some g => some g
    | none => if c = '\n' then none else reSearchNoNewline gm rest

/-- `re.search(LABEL + r'.*?' + GROUP, text, re.IGNORECASE)`: at each
occurrence of the (CJK, case-stable) label, look for the group on the same
line after the label; if none, keep scanning for later label occurrences. -/
def searchAfterLabel (label : List Char) (gm : List Char → Option (List Char)) :
    List Char → Option (List Char)
  | [] => none
  | c :: rest =>
    if label.isPrefixOf ((c :: rest).map Char.toUpper) then
      match reSearchNoNewline gm ((c :: rest).drop label.length) with
      | some g => some g
      | none => searchAfterLabel label gm rest
    else searchAfterLabel label gm rest

/-- Python's `max` over a list of floats (`none` for an empty list, which
in Python would raise — the caller only evaluates it inside the loop over
a nonempty dict). -/
def listMaxQ : List ℚ → Option ℚ
  | [] => none
  | x :: t =>
    match listMaxQ t with
    | none => some x
    | some m => some (max x m)

/-- The `operator_analysis` dict of `_enhance_speed_test_extraction`:
selection confidence 0.9 for exactly one active state, 0.5 for several,
0.0 otherwise; per-operator brightness comparison with
`relative_brightness = brightness / max(all brightness values)`;
and an (always empty) `visual_indicators` dict. -/
def opAnalysisVal (cr : ComparisonResult) : Val :=
  let states := cr.operatorStates
  let actives := states.filter (fun kv => kv.2.status == "active")
  let conf : ℚ :=
    if actives.length = 1 then 9 / 10
    else if actives.length > 1 then 1 / 2 else 0
  let m : ℚ := (listMaxQ (states.map (fun kv => kv.2.brightnessValue))).getD 0
  Val.vdict
    [ ("selection_confidence", Val.num conf)
    , ("brightness_comparison", Val.vdict (states.map (fun kv =>
        (kv.1, Val.vdict
          [ ("brightness_value", Val.num kv.2.brightnessValue)
          , ("brightness_level", Val.str kv.2.brightnessLevel)
          , ("relative_brightness", Val.num (kv.2.brightnessValue / m)) ]))))
    , ("visual_indicators", Val.vdict []) ]

/-- The three `speed_patterns` entries of
`_enhance_speed_test_extraction`, in the dict's insertion order (each key
absent without a match). -/
def enhanceSpeedBase (text : String) : Dict Val :=
  optEntry "download_detailed"
    ((searchAfterLabel "下载".toList matchMbpsGroupCIAt text.toList).map (fun g =>
      Val.vdict [("value", strGroupVal g), ("unit", Val.str "Mbps")]))
  ++ optEntry "upload_detailed"
    ((searchAfterLabel "上传".toList matchMbpsGroupCIAt text.toList).map (fun g =>
      Val.vdict [("value", strGroupVal g), ("unit", Val.str "Mbps")]))
  ++ optEntry "ping_detailed"
    ((searchAfterLabel "延迟".toList matchMsGroupCIAt text.toList).map (fun g =>
      Val.vdict [("value", strGroupVal g), ("unit", Val.str "ms")]))

/-- `DataExtractor._enhance_speed_test_extraction`: the detailed speed
patterns of `enhanceSpeedBase`, then, when a comparison result is
available, the `operator_analysis` entry.  When the state dict is nonempty
and the maximal brightness value is zero, Python raises
`ZeroDivisionError` while computing `relative_brightness`. -/
def enhanceSpeedTest (text : String) (va : Option ComparisonResult) :
    Except String (Dict Val) :=
  match va with
  | none => .ok (enhanceSpeedBase text)
  | some cr =>
    if !cr.operatorStates.isEmpty
        ∧ (listMaxQ (cr.operatorStates.map (fun kv => kv.2.brightnessValue))).getD 0 = 0
    then .error "ZeroDivisionError: float division by zero"
    else .ok (enhanceSpeedBase text ++ [("operator_analysis", opAnalysisVal cr)])

/-! ## `extract_structured_data` and `extract_mobile_network_data` -/

/-- The `data` sub-dict of a successful extraction result:
`extracted_text` plus the two structured sub-dicts. -/
structure DataPart where
  extractedText : String
  networkInfo : Dict Val
  speedTest : Dict Val

/-- The result envelope of `extract_structured_data` /
`extract_mobile_network_data`: `success`, the optional `data`, the
optional `error` string, and the `timestamp` produced from the wall
clock (`datetime.utcnow()`), which is passed in as `now`. -/
structure ExtractResult where
  success : Bool
  data : Option DataPart
  error : Option String
  timestamp : String

/-- `DataExtractor.extract_structured_data`.  For the typed inputs modelled
here no exception can occur, so the `success=False` branch is
unreachable; the wall-clock reading is the explicit `now` argument. -/
def extractStructuredData (text : String) (va : Option ComparisonResult)
    (now : String) : ExtractResult :=
  { success := true
  , data := some
      { extractedText := text
      , networkInfo := extractNetworkInfo text
      , speedTest := extractSpeedTestInfo text va }
  , error := none
  , timestamp := now }

/-- The OCR result consumed by `extract_mobile_network_data`: the full
text (`ocr_result.get('text', '')`) and the word-level data
(`ocr_result.get('word_data', [])`). -/
structure OcrResult where
  text : String
  wordData : List Word

/-- `DataExtractor.extract_mobile_network_data`: run the basic extraction,
then merge the two enhancement dicts into `network_info` and `speed_test`
via `dict.update` (each skipped when empty, mirroring `if network_info:`);
an exception inside the enhancement is caught and converted into a
`success=False` envelope. -/
def extractMobileNetworkData (ocr : OcrResult) (va : Option ComparisonResult)
    (now : String) : ExtractResult :=
  let sd := extractStructuredData ocr.text va now
  if sd.success then
    match sd.data with
    | none => sd
    | some d =>
      let ni := enhanceNetworkInfo ocr.text ocr.wordData
      let d1 := if ni.isEmpty then d
                else { d with networkInfo := pyUpdate d.networkInfo ni }
      match enhanceSpeedTest ocr.text va with
      | .error e => { success := false, data := none, error := some e, timestamp := now }
      | .ok si =>
        let d2 := if si.isEmpty then d1
                  else { d1 with speedTest := pyUpdate d1.speedTest si }
        { sd with data := some d2 }
  else sd

/-! ## Claim C9 -/

/-- **C9** (counterexample).  Two runs of `extract_structured_data` on the
same text and visual analysis but at different wall-clock instants give
different outputs: the embedded `timestamp` field differs, so the result
is not byte-identical. -/
theorem extract_two_runs_differ :
    extractStructuredData "x" none "2024-01-01T00:00:00Z"
      ≠ extractStructuredData "x" none "2024-01-01T00:00:01Z" := by
  intro heq
  have h2 : ("2024-01-01T00:00:00Z" : String) = "2024-01-01T00:00:01Z" :=
    congrArg ExtractResult.timestamp heq
  exact absurd h2 (by decide)

/-- **C9** (amended).  The extractor is deterministic modulo the
timestamp: two runs on identical text and identical visual-analysis input
agree on `success`, on the entire `data` payload (extracted text,
`network_info`, `speed_test`) and on `error`; only the `timestamp` field
reflects the clock. -/
theorem extract_deterministic_modulo_timestamp (text : String)
    (va : Option ComparisonResult) (t1 t2 : String) :
    (extractStructuredData text va t1).success
        = (extractStructuredData text va t2).success
    ∧ (extractStructuredData text va t1).data
        = (extractStructuredData text va t2).data
    ∧ (extractStructuredData text va t1).error
        = (extractStructuredData text va t2).error :=
  ⟨rfl, rfl, rfl⟩

/-! ## Claim C10 -/

theorem mem_dictSet_key {α : Type} (d : Dict α) (k : String) (v : α)
    (kv : String × α) (h : kv ∈ dictSet d k v) : kv.1 = k ∨ kv ∈ d := by
  induction d with
  | nil =>
    simp [dictSet] at h
    simp [h]
  | cons kv0 t ih =>
    obtain ⟨k0, v0⟩ := kv0
    by_cases h0 : k0 = k
    · simp [dictSet, h0] at h
      rcases h with h | h
      · simp [h, h0]
      · exact Or.inr (List.mem_cons_of_mem _ h)
    · simp [dictSet, h0] at h
      rcases h with h | h
      · exact Or.inr (by simp [h])
      · rcases ih h with h2 | h2
        · exact Or.inl h2
        · exact Or.inr (List.mem_cons_of_mem _ h2)

theorem dictGet_pyUpdate_of_not_mem {α : Type} (base e : Dict α) (k : String)
    (h : ∀ kv ∈ e, kv.1 ≠ k) : dictGet (pyUpdate base e) k = dictGet base k := by
  induction e generalizing base with
  | nil => rfl
  | cons kv t ih =>
    have hcons : pyUpdate base (kv :: t) = pyUpdate (dictSet base kv.1 kv.2) t := by
      simp [pyUpdate, List.foldl_cons]
    rw [hcons, ih _ (fun kv2 hm => h kv2 (List.mem_cons_of_mem _ hm))]
    exact dictGet_dictSet_ne _ _ _ _ (h kv (by simp))

theorem mem_enhanceNIStep_key (ws : List Word) (d : Dict Val) (i : ℕ)
    (kv : String × Val) (h : kv ∈ enhanceNIStep ws d i) :
    kv ∈ d ∨ kv.1 = "rsrp_detailed" ∨ kv.1 = "rsrq_detailed"
      ∨ kv.1 = "sinr_detailed" := by
  simp only [enhanceNIStep] at h
  repeat' split at h
  all_goals try exact Or.inl h
  all_goals
    rcases mem_dictSet_key _ _ _ _ h with h2 | h2
    · simp [h2]
    · exact Or.inl h2

theorem mem_enhanceNetworkInfo_key (text : String) (ws : List Word)
    (kv : String × Val) (h : kv ∈ enhanceNetworkInfo text ws) :
    kv.1 = "rsrp_detailed" ∨ kv.1 = "rsrq_detailed" ∨ kv.1 = "sinr_detailed" := by
  unfold enhanceNetworkInfo at h
  have aux : ∀ (idxs : List ℕ) (d : Dict Val) (kv : String × Val),
      kv ∈ idxs.foldl (enhanceNIStep ws) d →
      kv ∈ d ∨ kv.1 = "rsrp_detailed" ∨ kv.1 = "rsrq_detailed"
        ∨ kv.1 = "sinr_detailed" := by
    intro idxs
    induction idxs with
    | nil => intro d kv h2; exact Or.inl h2
    | cons i rest ih =>
      intro d kv h2
      rw [List.foldl_cons] at h2
      rcases ih _ _ h2 with h3 | h3
      · exact mem_enhanceNIStep_key _ _ _ _ h3
      · exact Or.inr h3
  rcases aux _ _ _ h with h2 | h2
  · simp at h2
  · exact h2

theorem mem_enhanceSpeedBase_key (text : String) (kv : String × Val)
    (h : kv ∈ enhanceSpeedBase text) :
    kv.1 = "download_detailed" ∨ kv.1 = "upload_detailed"
      ∨ kv.1 = "ping_detailed" := by
  simp only [enhanceSpeedBase, List.append_assoc, List.mem_append] at h
  rcases h with h | h | h
  · exact Or.inl (mem_optEntry_key _ _ _ h)
  · exact Or.inr (Or.inl (mem_optEntry_key _ _ _ h))
  · exact Or.inr (Or.inr (mem_optEntry_key _ _ _ h))

theorem enhanceSpeedTest_ok_keys (text : String) (va : Option ComparisonResult)
    (si : Dict Val) (h : enhanceSpeedTest text va = .ok si) :
    ∀ kv ∈ si, kv.1 = "download_detailed" ∨ kv.1 = "upload_detailed"
      ∨ kv.1 = "ping_detailed" ∨ kv.1 = "operator_analysis" := by
  intro kv hm
  cases va with
  | none =>
    simp only [enhanceSpeedTest, Except.ok.injEq] at h
    subst h
    rcases mem_enhanceSpeedBase_key _ kv hm with h2 | h2 | h2 <;> simp [h2]
  | some cr =>
    simp only [enhanceSpeedTest] at h
    split at h
    · exact Except.noConfusion h
    · simp only [Except.ok.injEq] at h
      subst h
      rcases List.mem_append.mp hm with h2 | h2
      · rcases mem_enhanceSpeedBase_key _ kv h2 with h3 | h3 | h3 <;> simp [h3]
      · simp at h2
        simp [h2]

/-- The keys the basic `_extract_network_info` can produce. -/
def netBasicKeys : List String :=
  ["signal_strength", "network_type", "location", "operator"]

/-- The keys the basic `_extract_speed_test_info` can produce. -/
def speedBasicKeys : List String :=
  ["ping", "download", "upload", "active_operator", "available_operators"]

/-- **C10** (counterexample).  For a visual analysis whose only carrier
state has brightness 0, the enhancement stage raises `ZeroDivisionError`
computing `relative_brightness`, the exception handler replaces the whole
record with a `success=False` envelope, and the basic fields (present in
`extract_structured_data`'s output, e.g. `available_operators`) are lost
rather than preserved by the merge. -/
theorem enhancement_can_drop_basic_fields :
    (extractMobileNetworkData ⟨"", []⟩
        (some ⟨[("A", ⟨"inactive", "very_low", 0, 0⟩)], none, ["A"]⟩)
        "T").success = false
    ∧ ((extractMobileNetworkData ⟨"", []⟩
        (some ⟨[("A", ⟨"inactive", "very_low", 0, 0⟩)], none, ["A"]⟩)
        "T").data).isNone = true
    ∧ ((extractStructuredData ""
        (some ⟨[("A", ⟨"inactive", "very_low", 0, 0⟩)], none, ["A"]⟩)
        "T").data.bind (fun d => dictGet d.speedTest "available_operators")).isSome
      = true :=
  ⟨rfl, rfl, rfl⟩

/-- **C10** (amended).  Whenever the enhancement stage completes without
raising — in particular whenever the carrier-state dict is empty or its
maximal brightness is nonzero — `extract_mobile_network_data` only adds
keys disjoint from those of the basic extractor
(`rsrp_detailed`/`rsrq_detailed`/`sinr_detailed` into `network_info`;
`download_detailed`/`upload_detailed`/`ping_detailed`/`operator_analysis`
into `speed_test`), so every basic field (`signal_strength`,
`network_type`, `location`, `operator`; `ping`, `download`, `upload`,
`active_operator`, `available_operators`) keeps its original value after
the merge. -/
theorem extractMobile_preserves_basic_fields (ocr : OcrResult)
    (va : Option ComparisonResult) (now : String) (si : Dict Val)
    (h : enhanceSpeedTest ocr.text va = .ok si) :
    ∃ d0 d1, (extractStructuredData ocr.text va now).data = some d0
      ∧ (extractMobileNetworkData ocr va now).data = some d1
      ∧ d1.extractedText = d0.extractedText
      ∧ (∀ k ∈ netBasicKeys, dictGet d1.networkInfo k = dictGet d0.networkInfo k)
      ∧ (∀ k ∈ speedBasicKeys, dictGet d1.speedTest k = dictGet d0.speedTest k) := by
  have hni : ∀ k ∈ netBasicKeys,
      dictGet (pyUpdate (extractNetworkInfo ocr.text)
        (enhanceNetworkInfo ocr.text ocr.wordData)) k
      = dictGet (extractNetworkInfo ocr.text) k := by
    intro k hk
    apply dictGet_pyUpdate_of_not_mem
    intro kv hm
    have h1 := mem_enhanceNetworkInfo_key _ _ _ hm
    fin_cases hk <;> rcases h1 with h1 | h1 | h1 <;> rw [h1] <;> decide
  have hsp : ∀ (st : Dict Val), ∀ k ∈ speedBasicKeys,
      dictGet (pyUpdate st si) k = dictGet st k := by
    intro st k hk
    apply dictGet_pyUpdate_of_not_mem
    intro kv hm
    have h1 := enhanceSpeedTest_ok_keys _ _ _ h kv hm
    fin_cases hk <;> rcases h1 with h1 | h1 | h1 | h1 <;> rw [h1] <;> decide
  have hdata : (extractMobileNetworkData ocr va now).data = some
      (let d : DataPart :=
        { extractedText := ocr.text
        , networkInfo := extractNetworkInfo ocr.text
        , speedTest := extractSpeedTestInfo ocr.text va }
       let ni := enhanceNetworkInfo ocr.text ocr.wordData
       let d1 := if ni.isEmpty then d
                 else { d with networkInfo := pyUpdate d.networkInfo ni }
       if si.isEmpty then d1
       else { d1 with speedTest := pyUpdate d1.speedTest si }) := by
    simp only [extractMobileNetworkData, extractStructuredData]
    rw [h]
    rfl
  refine ⟨{ extractedText := ocr.text
          , networkInfo := extractNetworkInfo ocr.text
          , speedTest := extractSpeedTestInfo ocr.text va }, _, rfl, hdata, ?_, ?_, ?_⟩
  · by_cases hne : (enhanceNetworkInfo ocr.text ocr.wordData).isEmpty
      <;> by_cases hse : si.isEmpty <;> simp [hne, hse]
  · intro k hk
    by_cases hne : (enhanceNetworkInfo ocr.text ocr.wordData).isEmpty
      <;> by_cases hse : si.isEmpty <;> simp [hne, hse]
      <;> first | rfl | exact hni k hk
  · intro k hk
    by_cases hne : (enhanceNetworkInfo ocr.text ocr.wordData).isEmpty
      <;> by_cases hse : si.isEmpty <;> simp [hne, hse]
      <;> first | rfl | exact hsp _ k hk

/-- Witness for `extractMobile_preserves_basic_fields` on an empty OCR
result with no visual analysis (the enhancement trivially succeeds). -/
theorem extractMobile_preserves_basic_fields_witness :
    enhanceSpeedTest "" none = Except.ok []
    ∧ ∃ d0 d1, (extractStructuredData "" none "T").data = some d0
        ∧ (extractMobileNetworkData ⟨"", []⟩ none "T").data = some d1
        ∧ d1.extractedText = d0.extractedText
        ∧ (∀ k ∈ netBasicKeys, dictGet d1.networkInfo k = dictGet d0.networkInfo k)
        ∧ (∀ k ∈ speedBasicKeys, dictGet d1.speedTest k = dictGet d0.speedTest k) :=
  ⟨rfl, extractMobile_preserves_basic_fields ⟨"", []⟩ none "T" [] rfl⟩

end OcrWebApp
